import Mathlib

/-!
Verification of the orchestration layer of the File-Sync-Tool frontend:
the shared reactive store and its bounded log buffer (src/lib/store),
the scheduler module (startScheduler / stopScheduler / executeScan),
the manual-deploy dispatcher of SettingsPage (handleManualDeploy),
the progress-event listener of MainConsole (setupListeners), and the
scan handler of TaskStatusPage (handleScan).  Each TypeScript function is
shallowly embedded as an executable Lean function over explicit state;
clock readings, translation rendering and collaborator call outcomes are
passed in as parameters, and the collaborator RPCs a function issues are
returned as an explicit call list.
-/

/-- Log severity, the `type` field of a log entry (src/lib/store). -/
inductive LogType where
  | info
  | error
  | success
deriving DecidableEq, Repr

/-- One entry of the console log buffer (interface LogEntry, src/lib/store). -/
structure LogEntry where
  time : String
  msg : String
  type : LogType
deriving DecidableEq, Repr

/-- Snapshot of the in-flight copy (interface ProgressState, src/lib/store).
Fractional numeric fields of the source are embedded as rationals. -/
structure ProgressState where
  folder : String
  percentage : ℚ
  copied : Nat
  total : Nat
  speed : ℚ
  eta : ℚ
  elapsed : ℚ
  localPath : Option String
  remotePath : Option String
deriving DecidableEq, Repr

/-- The shared reactive store (const appStore, src/lib/store). -/
structure AppStore where
  logs : List LogEntry
  progress : Option ProgressState
  isRunning : Bool
  nextRunTime : String
  isManualDeploying : Bool
  manualDeployMsg : String
deriving DecidableEq, Repr

/-- Initial value of the shared store (the reactive literal in src/lib/store). -/
def initStore : AppStore :=
  { logs := []
    progress := none
    isRunning := false
    nextRunTime := "-"
    isManualDeploying := false
    manualDeployMsg := "" }

/-- The list update performed by addLog (src/lib/store): unshift the new entry,
then pop the tail entry when the length exceeds 1000. -/
def logInsert (e : LogEntry) (logs : List LogEntry) : List LogEntry :=
  let l := e :: logs
  if l.length > 1000 then l.dropLast else l

/-- addLog (src/lib/store): prepend a timestamped entry to the shared log
buffer, evicting the oldest entry past the 1000 cap.  The clock reading
(new Date().toLocaleTimeString() in the source) is passed in as `time`. -/
def addLog (s : AppStore) (time msg : String) (ty : LogType) : AppStore :=
  { s with logs := logInsert ⟨time, msg, ty⟩ s.logs }

/-- One deploy target (interface DeployServer, src/lib/tauri). -/
structure DeployServer where
  id : String
  enabled : Bool
  name : String
  host : String
  port : Nat
  user : String
  password : String
  remote_path : String
deriving DecidableEq, Repr

/-- The persisted configuration object (interface AppConfig, src/lib/tauri). -/
structure AppConfig where
  remote_paths : List String
  target_versions : List String
  local_path : String
  interval_minutes : Nat
  time_ranges : List String
  file_extensions : List String
  filename_includes : List String
  deploy_enabled : Bool
  servers : List DeployServer
  ssh_host : String
  ssh_port : Nat
  ssh_user : String
  ssh_password : String
  remote_linux_path : String
  post_commands : List String
deriving DecidableEq, Repr

/-- Result snapshot of one scan invocation (interface ScanResult, src/lib/tauri). -/
structure ScanResult where
  scanned_paths : Nat
  found_folders : List String
  copied_folders : List String
  errors : List String
deriving DecidableEq, Repr

/-- A collaborator RPC issued through src/lib/tauri.  Embedded functions
return the list of RPCs they issue, in issue order. -/
inductive RpcCall where
  | getConfig
  | saveConfig
  | scanNow
  | cancelScan
  | pauseScan
  | resumeScan
  | addSystemEvent (action : String) (desc : String)
  | testSshConnection (serverId : String)
  | manualDeploy (serverId : String)
deriving DecidableEq, Repr

/-- Rendering of the i18n translation call t(key, args).  The locale message
tables (src/i18n/locales/messages) are not among the provided sources, so the
rendered text is modelled as the key paired with its argument; no claim
depends on the rendered text, only on how many lines are logged and at which
severity. -/
def tMsg (key : String) (arg : String) : String :=
  key ++ ": " ++ arg

/-- Rendering of Date.toLocaleTimeString() for a clock value in milliseconds,
used by updateNextRunTime; the formatting itself is opaque to every claim. -/
def fmtTime (msClock : Nat) : String :=
  toString msClock

/-- Settlement of the scanNow() collaborator call: the promise either
resolves with a ScanResult or rejects with an error (a cancelled scan
settles through one of these two cases as well). -/
inductive ScanOutcome where
  | success (r : ScanResult)
  | failure (e : String)
deriving DecidableEq, Repr

/-- Settlement of the getConfig() collaborator call inside startScheduler:
the promise resolves with a config, resolves with a null value (the branch
the source checks with if (!config)), or rejects. -/
inductive LoadOutcome where
  | ok (c : AppConfig)
  | nullConfig
  | thrown (e : String)
deriving DecidableEq, Repr

/-- The logging performed by the try/catch body of executeScan
(src/lib/scheduler) after the scanNow call settles: on success one summary
line, then one line per found candidate, per copied folder and per per-item
error, in that order; on whole-call failure a single error line.  The same
logging body appears verbatim in handleScan of MainConsole.vue and
TaskStatusPage.vue, so it is shared here. -/
def logScanOutcome (time : String) (oc : ScanOutcome) (s : AppStore) : AppStore :=
  match oc with
  | .success r =>
      let s := addLog s time
        (tMsg "console.scanComplete"
          (toString r.scanned_paths ++ "," ++ toString r.found_folders.length ++ ","
            ++ toString r.copied_folders.length)) LogType.success
      let s := r.found_folders.foldl
        (fun st f => addLog st time ("Found candidate: " ++ f) LogType.info) s
      let s := r.copied_folders.foldl
        (fun st f => addLog st time ("Successfully copied: " ++ f) LogType.success) s
      r.errors.foldl (fun st e => addLog st time ("Error: " ++ e) LogType.error) s
  | .failure e => addLog s time (tMsg "console.scanFailed" e) LogType.error

/-- executeScan (src/lib/scheduler, lines 13-38): refuse with a single error
line while appStore.isManualDeploying is set; otherwise log the running
marker, issue the scanNow RPC, log its outcome, and in the finally block
reset the shared progress snapshot to null. -/
def executeScan (time : String) (oc : ScanOutcome) (s : AppStore) : AppStore × List RpcCall :=
  if s.isManualDeploying then
    (addLog s time (tMsg "console.scanFailed" "Manual deploy in progress") LogType.error, [])
  else
    let s := addLog s time (tMsg "console.running" "") LogType.info
    ({ logScanOutcome time oc s with progress := none }, [RpcCall.scanNow])

/-- Result of one call of the scheduler module entry points: the store and
module timer afterwards, the RPCs issued, and the error escaping the async
function when a rejection is not caught (none when it settles normally). -/
structure SchedStep where
  store : AppStore
  timer : Option Nat
  calls : List RpcCall
  thrownErr : Option String
deriving DecidableEq, Repr

/-- startScheduler (src/lib/scheduler, lines 45-78).  The clock reading for
updateNextRunTime is `now`; the settlements of the getConfig and (on the
non-restart path) the fire-and-forget executeScan() call are passed in as
`load` and `oc`, the latter linearized to completion at its call site. -/
def startScheduler (time : String) (now : Nat) (isRestart : Bool) (load : LoadOutcome)
    (oc : ScanOutcome) (store : AppStore) (timer : Option Nat) : SchedStep :=
  if store.isRunning && !isRestart then ⟨store, timer, [], none⟩
  else
    match load with
    | .thrown e => ⟨store, timer, [RpcCall.getConfig], some e⟩
    | .nullConfig =>
        ⟨addLog store time (tMsg "console.failedLoadConfig" "Config is null") LogType.error,
         timer, [RpcCall.getConfig], none⟩
    | .ok config =>
        let store := { store with isRunning := true }
        let msg := tMsg "console.schedulerStarted" (toString config.interval_minutes)
        let (store, startCalls) :=
          if !isRestart then
            let store := addLog store time msg LogType.info
            let r := executeScan time oc store
            (r.1, [RpcCall.addSystemEvent "SCHEDULER_START" msg] ++ r.2)
          else (store, [])
        let intervalMs := config.interval_minutes * 60 * 1000
        let store := { store with nextRunTime := fmtTime (now + intervalMs) }
        ⟨store, some intervalMs, [RpcCall.getConfig] ++ startCalls, none⟩

/-- stopScheduler (src/lib/scheduler, lines 80-90): unconditionally set the
state to not running, clear the timer, reset nextRunTime, log the stop line
and record the SCHEDULER_STOP audit event. -/
def stopScheduler (time : String) (store : AppStore) (_timer : Option Nat) : SchedStep :=
  let store := { store with isRunning := false }
  let store := { store with nextRunTime := "-" }
  let msg := tMsg "console.schedulerStopped" ""
  let store := addLog store time msg LogType.info
  ⟨store, none, [RpcCall.addSystemEvent "SCHEDULER_STOP" msg], none⟩

/-- Component-local state of the manual-deploy tool in SettingsPage.vue:
the two path inputs, the server selection, the in-progress flag and the
status message (refs manualLocalPath, manualRemotePath, selectedServerId,
isDeploying, deployMsg). -/
structure DeployComponent where
  manualLocalPath : String
  manualRemotePath : String
  selectedServerId : String
  isDeploying : Bool
  deployMsg : String
deriving DecidableEq, Repr

/-- Initial values of the manual-deploy refs in SettingsPage.vue. -/
def initSettings : DeployComponent :=
  { manualLocalPath := ""
    manualRemotePath := ""
    selectedServerId := ""
    isDeploying := false
    deployMsg := "" }

/-- Target resolution inside handleManualDeploy (SettingsPage.vue, lines
126-137): the literal selection value "all" keeps exactly the enabled
servers; any other value is looked up among the server ids and yields the
found server or nothing. -/
def resolveTargets (sel : String) (servers : List DeployServer) : List DeployServer :=
  if sel == "all" then servers.filter (fun s => s.enabled)
  else
    match servers.find? (fun s => s.id == sel) with
    | some s => [s]
    | none => []

/-- The per-target dispatch loop of handleManualDeploy: for each target, one
manualDeploy RPC inside its own try/catch, incrementing successCount on
resolution and failCount on rejection; a failure is only logged to the
browser console and never stops the loop.  The settlement of the i-th RPC is
fate i (true for success). -/
def deployLoopAux (fate : Nat → Bool) (i successCount failCount : Nat) :
    List DeployServer → Nat × Nat × List RpcCall
  | [] => (successCount, failCount, [])
  | srv :: rest =>
      let sc := if fate i then successCount + 1 else successCount
      let fc := if fate i then failCount else failCount + 1
      let r := deployLoopAux fate (i + 1) sc fc rest
      (r.1, r.2.1, RpcCall.manualDeploy srv.id :: r.2.2)

/-- The dispatch loop started with both counters at zero. -/
def deployLoop (fate : Nat → Bool) (targets : List DeployServer) :
    Nat × Nat × List RpcCall :=
  deployLoopAux fate 0 0 0 targets

/-- handleManualDeploy (SettingsPage.vue, lines 125-171): precondition check
on the three form fields, target resolution, per-target dispatch loop, and
the aggregate message; a fully successful run also records one MANUAL_DEPLOY
audit event.  The outer try/catch of the source never fires because every
per-target rejection is caught inside the loop, and the finally block
clears isDeploying again. -/
def handleManualDeploy (fate : Nat → Bool) (config : AppConfig) (c : DeployComponent) :
    DeployComponent × List RpcCall :=
  if c.manualLocalPath == "" || c.manualRemotePath == "" || c.selectedServerId == "" then
    (c, [])
  else
    let targets := resolveTargets c.selectedServerId config.servers
    if targets.length == 0 then (c, [])
    else
      let c := { c with isDeploying := true, deployMsg := "" }
      let r := deployLoop fate targets
      let successCount := r.1
      let failCount := r.2.1
      if failCount == 0 then
        let msg := "Deployment successful to " ++ toString successCount ++ " servers!"
        ({ c with deployMsg := msg, isDeploying := false },
         r.2.2 ++ [RpcCall.addSystemEvent "MANUAL_DEPLOY"
           ("Deployed to " ++ toString successCount ++ " servers successfully.")])
      else
        let msg := "Deployment finished. Success: " ++ toString successCount
          ++ ", Failed: " ++ toString failCount ++ ". Check console for details."
        ({ c with deployMsg := msg, isDeploying := false }, r.2.2)

/-- Payload of one copy-progress push event (the event stream consumed in
setupListeners, MainConsole.vue). -/
structure ProgressPayload where
  folder : String
  total_bytes : Nat
  copied_bytes : Nat
  percentage : ℚ
  speed : ℚ
  eta_seconds : ℚ
deriving DecidableEq, Repr

/-- The component-local progress snapshot built from a payload by the
copy-progress listener of MainConsole.vue. -/
structure ProgressView where
  folder : String
  percentage : ℚ
  copied : Nat
  total : Nat
  speed : ℚ
  eta : ℚ
deriving DecidableEq, Repr

/-- Field-by-field construction of the snapshot from the payload (the object
literal assigned to progress.value in the copy-progress listener). -/
def toView (p : ProgressPayload) : ProgressView :=
  { folder := p.folder
    percentage := p.percentage
    copied := p.copied_bytes
    total := p.total_bytes
    speed := p.speed
    eta := p.eta_seconds }

/-- Progress-tracking state of MainConsole.vue: the current snapshot, the
pause flag, and the book of deferred clears scheduled through setTimeout,
each recorded as (absolute fire time in ms, the folder captured by the
callback). -/
structure ConsoleTracker where
  progress : Option ProgressView
  isPaused : Bool
  pending : List (Nat × String)
deriving DecidableEq, Repr

/-- The fixed grace delay (ms) passed to setTimeout by the copy-progress
listener of MainConsole.vue. -/
def graceDelayMs : Nat := 2000

/-- The copy-progress listener body (MainConsole.vue, lines 104-124): every
event replaces the snapshot; an event at or above 100 percent additionally
schedules a deferred clear graceDelayMs later, capturing the folder name of
the completing event. -/
def onCopyProgress (now : Nat) (p : ProgressPayload) (s : ConsoleTracker) : ConsoleTracker :=
  let s := { s with progress := some (toView p) }
  if (100 : ℚ) ≤ p.percentage then
    { s with pending := s.pending ++ [(now + graceDelayMs, p.folder)] }
  else s

/-- The setTimeout callback of the copy-progress listener, run when the
grace delay elapses: clear the snapshot and the pause flag only when the
current snapshot still names the folder captured at scheduling time. -/
def fireDeferredClear (folder : String) (s : ConsoleTracker) : ConsoleTracker :=
  match s.progress with
  | some pr =>
      if pr.folder == folder then { s with progress := none, isPaused := false } else s
  | none => s

/-- Component-local transient flags of TaskStatusPage.vue (refs isCancelling
and isPaused); the page shares its log buffer and progress snapshot with the
store. -/
structure TaskFlags where
  isCancelling : Bool
  isPaused : Bool
deriving DecidableEq, Repr

/-- handleScan (TaskStatusPage.vue, lines 82-104, and with component-local
state MainConsole.vue, lines 157-182): log the running marker, issue the
scanNow RPC, log its outcome, and in the finally block clear the progress
snapshot, the isCancelling flag and the isPaused flag. -/
def taskHandleScan (time : String) (oc : ScanOutcome) (store : AppStore) (_fl : TaskFlags) :
    AppStore × TaskFlags × List RpcCall :=
  let store := addLog store time (tMsg "console.running" "") LogType.info
  ({ logScanOutcome time oc store with progress := none },
   ⟨false, false⟩, [RpcCall.scanNow])

/-- handleCancel (TaskStatusPage.vue, lines 20-33): gate on isCancelling,
set it, log the cancelling line naming the active folder, and issue the
advisory cancelScan RPC; when that RPC rejects (settlement `some e`), log
the failure and reset the flag. -/
def taskCancel (time : String) (cancelFailed : Option String) (store : AppStore)
    (fl : TaskFlags) : AppStore × TaskFlags × List RpcCall :=
  if fl.isCancelling then (store, fl, [])
  else
    let fl := { fl with isCancelling := true }
    let targetName := match store.progress with
      | some pr => pr.folder
      | none => ""
    let msg := tMsg "console.cancelling" ""
      ++ " " ++ (if targetName == "" then "" else "(" ++ targetName ++ ")")
    let store := addLog store time msg LogType.info
    match cancelFailed with
    | none => (store, fl, [RpcCall.cancelScan])
    | some e =>
        (addLog store time ("Cancel failed: " ++ e) LogType.error,
         { fl with isCancelling := false }, [RpcCall.cancelScan])

/-- togglePause (TaskStatusPage.vue, lines 36-53): a no-op without a live
progress snapshot; otherwise forward the advisory resume or pause RPC,
toggle the isPaused flag, log one line naming the active folder and record
the matching RESUME or PAUSE audit event. -/
def taskTogglePause (time : String) (store : AppStore) (fl : TaskFlags) :
    AppStore × TaskFlags × List RpcCall :=
  match store.progress with
  | none => (store, fl, [])
  | some pr =>
      let suffix := if pr.folder == "" then "" else "(" ++ pr.folder ++ ")"
      if fl.isPaused then
        let msg := tMsg "console.resumed" "" ++ " " ++ suffix
        (addLog store time msg LogType.info, { fl with isPaused := false },
         [RpcCall.resumeScan, RpcCall.addSystemEvent "RESUME" msg])
      else
        let msg := tMsg "console.paused" "" ++ " " ++ suffix
        (addLog store time msg LogType.info, { fl with isPaused := true },
         [RpcCall.pauseScan, RpcCall.addSystemEvent "PAUSE" msg])

/-- The in-process state the embedded operations act on: the shared store,
the scheduler module timer, the SettingsPage deploy form, and the
TaskStatusPage transient flags. -/
structure SysState where
  store : AppStore
  timer : Option Nat
  settings : DeployComponent
  task : TaskFlags
deriving DecidableEq, Repr

/-- State at process start: the store literal, no timer, empty form, clear
flags. -/
def initSys : SysState :=
  { store := initStore
    timer := none
    settings := initSettings
    task := ⟨false, false⟩ }

/-- One invocation of an embedded operation of the program, carrying the
environment inputs it consumes (clock readings and collaborator
settlements). -/
inductive Op where
  | schedScan (time : String) (oc : ScanOutcome)
  | schedStart (time : String) (now : Nat) (isRestart : Bool) (load : LoadOutcome)
      (oc : ScanOutcome)
  | schedStop (time : String)
  | deploy (fate : Nat → Bool) (config : AppConfig)
  | deployForm (localPath remotePath sel : String)
  | taskScan (time : String) (oc : ScanOutcome)
  | taskCancelOp (time : String) (cancelFailed : Option String)
  | taskPauseOp (time : String)
  | clearLogsOp
  | progressSet (p : ProgressState)

/-- Dispatch of one operation against the system state, returning the next
state and the RPCs issued.  clearLogsOp is the splice-based clearLogs of the
store-backed console page; progressSet is the store write of the
copy-progress listener.  Modelled from the spec: the listener that writes
the shared ProgressState (each push event fully replaces the current
snapshot, section 4.3) is not among the provided sources, only its readers
are, so progressSet embeds that one store write. -/
def step (op : Op) (s : SysState) : SysState × List RpcCall :=
  match op with
  | .schedScan t oc =>
      let r := executeScan t oc s.store
      ({ s with store := r.1 }, r.2)
  | .schedStart t now ir load oc =>
      let r := startScheduler t now ir load oc s.store s.timer
      ({ s with store := r.store, timer := r.timer }, r.calls)
  | .schedStop t =>
      let r := stopScheduler t s.store s.timer
      ({ s with store := r.store, timer := r.timer }, r.calls)
  | .deploy fate cfg =>
      let r := handleManualDeploy fate cfg s.settings
      ({ s with settings := r.1 }, r.2)
  | .deployForm lp rp sel =>
      let c := { s.settings with manualLocalPath := lp }
      let c := { c with manualRemotePath := rp }
      let c := { c with selectedServerId := sel }
      ({ s with settings := c }, [])
  | .taskScan t oc =>
      let r := taskHandleScan t oc s.store s.task
      ({ s with store := r.1, task := r.2.1 }, r.2.2)
  | .taskCancelOp t cf =>
      let r := taskCancel t cf s.store s.task
      ({ s with store := r.1, task := r.2.1 }, r.2.2)
  | .taskPauseOp t =>
      let r := taskTogglePause t s.store s.task
      ({ s with store := r.1, task := r.2.1 }, r.2.2)
  | .clearLogsOp => ({ s with store := { s.store with logs := [] } }, [])
  | .progressSet p => ({ s with store := { s.store with progress := some p } }, [])

/-- Run a sequence of operations from a starting state, discarding the RPC
traces. -/
def runOps (ops : List Op) (s : SysState) : SysState :=
  ops.foldl (fun st op => (step op st).1) s

/-- A shared store whose scheduler state machine is Running. -/
def runningStore : AppStore :=
  { initStore with isRunning := true }

/-- A shared store in which a manual deployment is flagged in progress. -/
def deployingStore : AppStore :=
  { initStore with isManualDeploying := true }

/-- A sample config carrying one enabled deploy server. -/
def srvA : DeployServer :=
  { id := "s1", enabled := true, name := "A", host := "hostA", port := 22,
    user := "u", password := "pw", remote_path := "/opt" }

/-- A second enabled deploy server. -/
def srvB : DeployServer :=
  { id := "s2", enabled := true, name := "B", host := "hostB", port := 22,
    user := "u", password := "pw", remote_path := "/opt" }

/-- A disabled deploy server. -/
def srvDis : DeployServer :=
  { id := "s9", enabled := false, name := "D", host := "hostD", port := 22,
    user := "u", password := "pw", remote_path := "/opt" }

/-- A sample configuration whose server list is [srvA]. -/
def cfg1 : AppConfig :=
  { remote_paths := [], target_versions := [], local_path := "",
    interval_minutes := 10, time_ranges := [], file_extensions := [],
    filename_includes := [], deploy_enabled := true, servers := [srvA],
    ssh_host := "", ssh_port := 22, ssh_user := "", ssh_password := "",
    remote_linux_path := "", post_commands := [] }

/-- A live copy snapshot used as concrete in-flight progress. -/
def pX : ProgressState :=
  { folder := "FolderX", percentage := 50, copied := 10, total := 100,
    speed := 1, eta := 1, elapsed := 1, localPath := none, remotePath := none }

/-- An empty successful scan result. -/
def r0 : ScanResult :=
  { scanned_paths := 1, found_folders := [], copied_folders := [], errors := [] }

/-- A system state with a live progress snapshot and both TaskStatusPage
transient flags set. -/
def c4state : SysState :=
  { store := { initStore with progress := some pX }
    timer := none
    settings := initSettings
    task := { isCancelling := true, isPaused := true } }

/-- The completing payload of the C5 scenario (folder X at 100 percent). -/
def payX : ProgressPayload :=
  { folder := "X", total_bytes := 100, copied_bytes := 100, percentage := 100,
    speed := 1, eta_seconds := 0 }

/-- The newer payload of the C5 scenario (folder Y, still copying). -/
def payY : ProgressPayload :=
  { folder := "Y", total_bytes := 50, copied_bytes := 10, percentage := 20,
    speed := 1, eta_seconds := 9 }

/-- Tracker state before any event. -/
def tr0 : ConsoleTracker :=
  { progress := none, isPaused := false, pending := [] }

/-- A system state with a scan/copy in flight (live shared progress
snapshot) and a fully filled manual-deploy form targeting srvA. -/
def c8settings : DeployComponent :=
  { manualLocalPath := "C:/pkg.zip"
    manualRemotePath := "/opt"
    selectedServerId := "s1"
    isDeploying := false
    deployMsg := "" }

def c8state : SysState :=
  { store := { initStore with progress := some pX }
    timer := none
    settings := c8settings
    task := { isCancelling := false, isPaused := false } }

theorem logInsert_eq_take (e : LogEntry) (l : List LogEntry) (h : l.length ≤ 1000) :
    logInsert e l = (e :: l).take 1000 := by
  unfold logInsert
  by_cases h1 : (e :: l).length > 1000
  · have hl : l.length = 1000 := by
      simp only [List.length_cons] at h1
      omega
    rw [if_pos h1, List.dropLast_eq_take, List.length_cons, hl]
  · rw [if_neg h1, List.take_of_length_le]
    simp only [List.length_cons] at h1
    simp only [List.length_cons]
    omega

theorem logInsert_length_le (e : LogEntry) (l : List LogEntry) (h : l.length ≤ 1000) :
    (logInsert e l).length ≤ 1000 := by
  rw [logInsert_eq_take e l h]
  simp

theorem logInsert_head (e : LogEntry) (l : List LogEntry) :
    (logInsert e l).head? = some e := by
  show ((if (e :: l).length > 1000 then (e :: l).dropLast else e :: l)).head? = some e
  split
  next h1 =>
    cases l with
    | nil => simp at h1
    | cons a as => rfl
  next h1 => rfl

theorem take_append_take (a b : List LogEntry) (n : Nat) :
    (a ++ b.take n).take n = (a ++ b).take n := by
  rw [List.take_append_eq_append_take, List.take_append_eq_append_take, List.take_take]
  congr 1
  exact congrArg b.take (Nat.min_eq_left (Nat.sub_le n a.length))

theorem foldl_logInsert (es : List LogEntry) :
    ∀ (l : List LogEntry), l.length ≤ 1000 →
      es.foldl (fun acc e => logInsert e acc) l = (es.reverse ++ l).take 1000 := by
  induction es with
  | nil =>
      intro l h
      simp [List.take_of_length_le h]
  | cons e rest ih =>
      intro l h
      have h2 : (logInsert e l).length ≤ 1000 := logInsert_length_le e l h
      calc (e :: rest).foldl (fun acc e => logInsert e acc) l
          = rest.foldl (fun acc e => logInsert e acc) (logInsert e l) := rfl
        _ = (rest.reverse ++ logInsert e l).take 1000 := ih (logInsert e l) h2
        _ = (rest.reverse ++ (e :: l).take 1000).take 1000 := by rw [logInsert_eq_take e l h]
        _ = (rest.reverse ++ (e :: l)).take 1000 := take_append_take _ _ _
        _ = ((e :: rest).reverse ++ l).take 1000 := by simp

/-- C2: each log insert prepends the new entry (newest-first) and evicts the
tail past the fixed cap of 1000; consequently, inserting a sequence of
entries into the empty buffer leaves the most recent 1000 entries in
newest-first order, and once more than 1000 entries have been inserted the
buffer length is exactly 1000. -/
theorem C2_logSink_cap (es : List LogEntry) :
    (∀ (e : LogEntry) (l : List LogEntry), (logInsert e l).head? = some e) ∧
    es.foldl (fun acc e => logInsert e acc) [] = es.reverse.take 1000 ∧
    (1000 < es.length → (es.foldl (fun acc e => logInsert e acc) []).length = 1000) := by
  refine ⟨logInsert_head, ?_, ?_⟩
  · simpa using foldl_logInsert es [] (by simp)
  · intro hlen
    have h := foldl_logInsert es [] (by simp)
    rw [h]
    simp only [List.append_nil, List.length_take, List.length_reverse]
    omega

/-- Witness for C2 at a concrete run of 1001 inserted entries. -/
theorem C2_logSink_cap_witness :
    1000 < (List.replicate 1001 (⟨"t", "m", LogType.info⟩ : LogEntry)).length ∧
    ((List.replicate 1001 (⟨"t", "m", LogType.info⟩ : LogEntry)).foldl
        (fun acc e => logInsert e acc) []).length = 1000 :=
  ⟨by rw [List.length_replicate]; omega,
   (C2_logSink_cap (List.replicate 1001 ⟨"t", "m", LogType.info⟩)).2.2
     (by rw [List.length_replicate]; omega)⟩

theorem foldl_pres {α β : Type} (f : AppStore → α → AppStore) (g : AppStore → β)
    (h : ∀ s a, g (f s a) = g s) :
    ∀ (l : List α) (s : AppStore), g (l.foldl f s) = g s := by
  intro l
  induction l with
  | nil => intro s; rfl
  | cons a as ih =>
      intro s
      rw [List.foldl_cons, ih, h]

theorem logScanOutcome_pres {β : Type} (g : AppStore → β)
    (hAdd : ∀ s t m ty, g (addLog s t m ty) = g s)
    (t : String) (oc : ScanOutcome) (s : AppStore) :
    g (logScanOutcome t oc s) = g s := by
  cases oc with
  | success r =>
      show g (r.errors.foldl _ (r.copied_folders.foldl _ (r.found_folders.foldl _ _))) = g s
      rw [foldl_pres _ g (fun s e => hAdd s t ("Error: " ++ e) LogType.error),
        foldl_pres _ g (fun s f => hAdd s t ("Successfully copied: " ++ f) LogType.success),
        foldl_pres _ g (fun s f => hAdd s t ("Found candidate: " ++ f) LogType.info),
        hAdd]
  | failure e => exact hAdd s t (tMsg "console.scanFailed" e) LogType.error

theorem executeScan_pres {β : Type} (g : AppStore → β)
    (hAdd : ∀ s t m ty, g (addLog s t m ty) = g s)
    (hProg : ∀ s : AppStore, g { s with progress := none } = g s)
    (t : String) (oc : ScanOutcome) (s : AppStore) :
    g (executeScan t oc s).1 = g s := by
  unfold executeScan
  split
  · exact hAdd s t (tMsg "console.scanFailed" "Manual deploy in progress") LogType.error
  · show g { logScanOutcome t oc (addLog s t (tMsg "console.running" "") LogType.info)
        with progress := none } = g s
    rw [hProg, logScanOutcome_pres g hAdd, hAdd]

theorem executeScan_isManualDeploying (t : String) (oc : ScanOutcome) (s : AppStore) :
    (executeScan t oc s).1.isManualDeploying = s.isManualDeploying :=
  executeScan_pres (fun st => st.isManualDeploying)
    (fun _ _ _ _ => rfl) (fun _ => rfl) t oc s

theorem executeScan_isRunning (t : String) (oc : ScanOutcome) (s : AppStore) :
    (executeScan t oc s).1.isRunning = s.isRunning :=
  executeScan_pres (fun st => st.isRunning) (fun _ _ _ _ => rfl) (fun _ => rfl) t oc s

theorem taskHandleScan_pres {β : Type} (g : AppStore → β)
    (hAdd : ∀ s t m ty, g (addLog s t m ty) = g s)
    (hProg : ∀ s : AppStore, g { s with progress := none } = g s)
    (t : String) (oc : ScanOutcome) (store : AppStore) (fl : TaskFlags) :
    g (taskHandleScan t oc store fl).1 = g store := by
  show g { logScanOutcome t oc (addLog store t (tMsg "console.running" "") LogType.info)
      with progress := none } = g store
  rw [hProg, logScanOutcome_pres g hAdd, hAdd]

theorem taskHandleScan_isManualDeploying (t : String) (oc : ScanOutcome) (store : AppStore)
    (fl : TaskFlags) :
    (taskHandleScan t oc store fl).1.isManualDeploying = store.isManualDeploying :=
  taskHandleScan_pres (fun st => st.isManualDeploying)
    (fun _ _ _ _ => rfl) (fun _ => rfl) t oc store fl

theorem startScheduler_isManualDeploying (t : String) (now : Nat) (ir : Bool)
    (load : LoadOutcome) (oc : ScanOutcome) (store : AppStore) (timer : Option Nat) :
    (startScheduler t now ir load oc store timer).store.isManualDeploying
      = store.isManualDeploying := by
  unfold startScheduler
  split
  · rfl
  · cases load with
    | thrown e => rfl
    | nullConfig => rfl
    | ok cfg =>
        cases ir with
        | true => rfl
        | false =>
            show ((executeScan t oc _).1).isManualDeploying = store.isManualDeploying
            rw [executeScan_isManualDeploying]
            rfl

theorem taskCancel_isManualDeploying (t : String) (cf : Option String) (store : AppStore)
    (fl : TaskFlags) :
    (taskCancel t cf store fl).1.isManualDeploying = store.isManualDeploying := by
  unfold taskCancel
  split
  · rfl
  · cases cf with
    | none => rfl
    | some e => rfl

theorem taskTogglePause_isManualDeploying (t : String) (store : AppStore) (fl : TaskFlags) :
    (taskTogglePause t store fl).1.isManualDeploying = store.isManualDeploying := by
  unfold taskTogglePause
  cases store.progress with
  | none => rfl
  | some pr =>
      dsimp only
      by_cases hp : fl.isPaused = true
      · rw [if_pos hp]
        rfl
      · rw [if_neg hp]
        rfl

theorem step_isManualDeploying (op : Op) (s : SysState) :
    (step op s).1.store.isManualDeploying = s.store.isManualDeploying := by
  cases op with
  | schedScan t oc => exact executeScan_isManualDeploying t oc s.store
  | schedStart t now ir load oc => exact startScheduler_isManualDeploying t now ir load oc s.store s.timer
  | schedStop t => rfl
  | deploy fate cfg => rfl
  | deployForm lp rp sel => rfl
  | taskScan t oc => exact taskHandleScan_isManualDeploying t oc s.store s.task
  | taskCancelOp t cf => exact taskCancel_isManualDeploying t cf s.store s.task
  | taskPauseOp t => exact taskTogglePause_isManualDeploying t s.store s.task
  | clearLogsOp => rfl
  | progressSet p => rfl

theorem runOps_isManualDeploying (ops : List Op) :
    ∀ s : SysState, (runOps ops s).store.isManualDeploying = s.store.isManualDeploying := by
  induction ops with
  | nil => intro s; rfl
  | cons op rest ih =>
      intro s
      show (runOps rest (step op s).1).store.isManualDeploying = _
      rw [ih, step_isManualDeploying]

/-- C10: in every state reachable by the embedded operations from process
start, the shared manual-deploy-in-progress flag appStore.isManualDeploying
is false — no operation ever sets it (the manual deploy handler toggles only
its component-local isDeploying ref) — so executeScan never takes its
refusal branch: from any reachable state it always issues the scanNow RPC. -/
theorem C10_manualDeploy_flag_never_set (ops : List Op) :
    (runOps ops initSys).store.isManualDeploying = false ∧
    ∀ (t : String) (oc : ScanOutcome),
      (executeScan t oc (runOps ops initSys).store).2 = [RpcCall.scanNow] := by
  have h : (runOps ops initSys).store.isManualDeploying = false := by
    rw [runOps_isManualDeploying]
    rfl
  refine ⟨h, fun t oc => ?_⟩
  unfold executeScan
  rw [if_neg (by rw [h]; exact Bool.false_ne_true)]

/-- C7: while the shared manual-deploy-in-progress flag is set, a requested
scan execution refuses to run: executeScan issues no collaborator RPC,
changes nothing of the store except prepending exactly one error log line,
and returns. -/
theorem C7_scan_refusal (t : String) (oc : ScanOutcome) (s : AppStore)
    (h : s.isManualDeploying = true) :
    executeScan t oc s =
      ({ s with logs := (logInsert
          ⟨t, tMsg "console.scanFailed" "Manual deploy in progress", LogType.error⟩ s.logs) },
        []) ∧
    (executeScan t oc s).1.logs.head? =
      some ⟨t, tMsg "console.scanFailed" "Manual deploy in progress", LogType.error⟩ := by
  have h1 : executeScan t oc s =
      (addLog s t (tMsg "console.scanFailed" "Manual deploy in progress") LogType.error, []) := by
    unfold executeScan
    rw [if_pos h]
  exact ⟨h1, by rw [h1]; exact logInsert_head _ _⟩

/-- Witness for C7 at a concrete store with the flag set. -/
theorem C7_scan_refusal_witness :
    deployingStore.isManualDeploying = true ∧
    executeScan "t" (ScanOutcome.failure "x") deployingStore =
      ({ deployingStore with logs := (logInsert
          ⟨"t", tMsg "console.scanFailed" "Manual deploy in progress", LogType.error⟩
          deployingStore.logs) }, []) :=
  ⟨rfl, (C7_scan_refusal "t" (ScanOutcome.failure "x") deployingStore rfl).1⟩

/-- Counterexample to C3 as stated: from the Stopped state (the initial
store), stopScheduler is not a no-op — it still prepends the
scheduler-stopped log line and records a SCHEDULER_STOP audit event. -/
theorem C3_counterexample :
    initStore.isRunning = false ∧
    (stopScheduler "09:00:00" initStore none).store.logs ≠ [] ∧
    (stopScheduler "09:00:00" initStore none).calls ≠ [] := by
  refine ⟨rfl, ?_, ?_⟩ <;> decide

/-- C3 (amended): start() while already Running (and not the silent-restart
path) is a complete no-op — no timer change, no RPC, no log line; stop()
always forces the Stopped shape (isRunning false, timer cleared, nextRunTime
reset) but also always emits the stop log line and the SCHEDULER_STOP audit
event, so from the Stopped state it changes nothing except emitting that
line and event; otherwise start() from Stopped with a loaded config
transitions to Running with a timer at the configured interval, and stop()
from Running transitions to Stopped. -/
theorem C3_start_stop (t : String) (now : Nat) (load : LoadOutcome) (oc : ScanOutcome)
    (store : AppStore) (timer : Option Nat) (cfg : AppConfig) :
    (store.isRunning = true →
       startScheduler t now false load oc store timer = ⟨store, timer, [], none⟩) ∧
    (stopScheduler t store timer =
       ⟨{ store with
            isRunning := false
            nextRunTime := "-"
            logs := (logInsert ⟨t, tMsg "console.schedulerStopped" "", LogType.info⟩ store.logs) },
         none,
         [RpcCall.addSystemEvent "SCHEDULER_STOP" (tMsg "console.schedulerStopped" "")],
         none⟩) ∧
    (store.isRunning = false →
       (startScheduler t now false (LoadOutcome.ok cfg) oc store timer).store.isRunning = true ∧
       (startScheduler t now false (LoadOutcome.ok cfg) oc store timer).timer
         = some (cfg.interval_minutes * 60 * 1000)) ∧
    (stopScheduler t store timer).store.isRunning = false := by
  refine ⟨?_, rfl, ?_, rfl⟩
  · intro h
    unfold startScheduler
    rw [if_pos (by rw [h]; rfl)]
  · intro h
    have hg : ¬((store.isRunning && !false) = true) := by
      rw [h]
      exact Bool.false_ne_true
    constructor
    · unfold startScheduler
      rw [if_neg hg]
      dsimp only
      rw [if_pos (show (!false) = true from rfl)]
      dsimp only
      rw [executeScan_isRunning]
      rfl
    · unfold startScheduler
      rw [if_neg hg]

/-- Witness for C3 at concrete Running and Stopped stores. -/
theorem C3_start_stop_witness :
    startScheduler "t" 0 false LoadOutcome.nullConfig (ScanOutcome.failure "x")
        runningStore none = ⟨runningStore, none, [], none⟩ ∧
    (startScheduler "t" 0 false (LoadOutcome.ok cfg1) (ScanOutcome.failure "x")
        initStore none).store.isRunning = true :=
  ⟨(C3_start_stop "t" 0 LoadOutcome.nullConfig (ScanOutcome.failure "x")
      runningStore none cfg1).1 rfl,
   ((C3_start_stop "t" 0 (LoadOutcome.ok cfg1) (ScanOutcome.failure "x")
      initStore none cfg1).2.2.1 rfl).1⟩

/-- Counterexample to C9 as stated: a configuration load that fails by
rejection (the getConfig promise throwing) aborts start() with the state
unchanged but logs nothing — no load-error line is produced, the rejection
escapes the async function instead. -/
theorem C9_counterexample :
    (startScheduler "t" 0 false (LoadOutcome.thrown "boom") (ScanOutcome.failure "x")
        initStore none).store = initStore ∧
    (startScheduler "t" 0 false (LoadOutcome.thrown "boom") (ScanOutcome.failure "x")
        initStore none).store.logs = [] ∧
    (startScheduler "t" 0 false (LoadOutcome.thrown "boom") (ScanOutcome.failure "x")
        initStore none).thrownErr = some "boom" := by
  refine ⟨rfl, rfl, rfl⟩

/-- C9 (amended): start() from Stopped first issues the config load; a load
that resolves null logs the load error and aborts with no state transition,
no timer creation and no audit event; a load that rejects likewise aborts
with the state completely unchanged, but logs nothing — the rejection
propagates out of start(). -/
theorem C9_start_load_failure (t : String) (now : Nat) (oc : ScanOutcome) (e : String)
    (store : AppStore) (timer : Option Nat) (h : store.isRunning = false) :
    startScheduler t now false LoadOutcome.nullConfig oc store timer =
      ⟨{ store with logs := (logInsert
          ⟨t, tMsg "console.failedLoadConfig" "Config is null", LogType.error⟩ store.logs) },
        timer, [RpcCall.getConfig], none⟩ ∧
    startScheduler t now false (LoadOutcome.thrown e) oc store timer =
      ⟨store, timer, [RpcCall.getConfig], some e⟩ := by
  have hg : ¬((store.isRunning && !false) = true) := by
    rw [h]
    exact Bool.false_ne_true
  constructor
  · unfold startScheduler
    rw [if_neg hg]
    rfl
  · unfold startScheduler
    rw [if_neg hg]

/-- Witness for C9 at the initial (Stopped) store. -/
theorem C9_start_load_failure_witness :
    startScheduler "t" 7 false LoadOutcome.nullConfig (ScanOutcome.failure "x")
        initStore none =
      ⟨{ initStore with logs := (logInsert
          ⟨"t", tMsg "console.failedLoadConfig" "Config is null", LogType.error⟩
          initStore.logs) },
        none, [RpcCall.getConfig], none⟩ :=
  (C9_start_load_failure "t" 7 (ScanOutcome.failure "x") "e" initStore none rfl).1

theorem deployLoopAux_calls (fate : Nat → Bool) :
    ∀ (targets : List DeployServer) (i sc fc : Nat),
      (deployLoopAux fate i sc fc targets).2.2
        = targets.map (fun srv => RpcCall.manualDeploy srv.id) := by
  intro targets
  induction targets with
  | nil => intro i sc fc; rfl
  | cons srv rest ih =>
      intro i sc fc
      show RpcCall.manualDeploy srv.id :: (deployLoopAux fate (i + 1) _ _ rest).2.2 = _
      rw [ih, List.map_cons]

theorem deployLoopAux_sum (fate : Nat → Bool) :
    ∀ (targets : List DeployServer) (i sc fc : Nat),
      (deployLoopAux fate i sc fc targets).1 + (deployLoopAux fate i sc fc targets).2.1
        = sc + fc + targets.length := by
  intro targets
  induction targets with
  | nil => intro i sc fc; rfl
  | cons srv rest ih =>
      intro i sc fc
      show (deployLoopAux fate (i + 1) _ _ rest).1 + (deployLoopAux fate (i + 1) _ _ rest).2.1
          = sc + fc + (srv :: rest).length
      rw [ih]
      by_cases hf : fate i = true
      · rw [if_pos hf, if_pos hf, List.length_cons]
        omega
      · rw [if_neg hf, if_neg hf, List.length_cons]
        omega

theorem deployLoopAux_success (fate : Nat → Bool) :
    ∀ (targets : List DeployServer) (i sc fc : Nat),
      (deployLoopAux fate i sc fc targets).1
        = sc + (List.range targets.length).countP (fun j => fate (i + j)) := by
  intro targets
  induction targets with
  | nil => intro i sc fc; rfl
  | cons srv rest ih =>
      intro i sc fc
      show (deployLoopAux fate (i + 1) (if fate i then sc + 1 else sc) _ rest).1 = _
      rw [ih, List.length_cons, List.range_succ_eq_map, List.countP_cons, List.countP_map]
      have harg : ((fun j => fate (i + j)) ∘ Nat.succ) = fun j => fate (i + 1 + j) := by
        funext j
        show fate (i + (j + 1)) = fate (i + 1 + j)
        rw [Nat.add_succ, Nat.succ_add]
      rw [harg]
      simp only [Nat.add_zero]
      by_cases hf : fate i = true
      · rw [if_pos hf, if_pos hf]
        omega
      · rw [if_neg hf, if_neg hf]
        omega

/-- C1: for every resolved target list and every per-target
success/failure pattern, the dispatch loop of handleManualDeploy issues the
per-server deploy RPC for every target (a failure never prevents later
attempts, and nothing is ever rolled back — the call trace holds exactly the
per-target deploy calls), successCount is the number of targets whose deploy
succeeded, and successCount + failCount covers the whole target list; in
particular two targets of which the first fails and the second succeeds
yield successCount 1, failCount 1, and both delivery attempts on record. -/
theorem C1_deploy_failure_isolation :
    (∀ (fate : Nat → Bool) (targets : List DeployServer),
        (deployLoop fate targets).2.2
            = targets.map (fun srv => RpcCall.manualDeploy srv.id) ∧
        (deployLoop fate targets).1
            = (List.range targets.length).countP (fun i => fate i) ∧
        (deployLoop fate targets).1 + (deployLoop fate targets).2.1 = targets.length) ∧
    deployLoop (fun i => i == 1) [srvA, srvB]
      = (1, 1, [RpcCall.manualDeploy "s1", RpcCall.manualDeploy "s2"]) := by
  constructor
  · intro fate targets
    refine ⟨deployLoopAux_calls fate targets 0 0 0, ?_, ?_⟩
    · rw [deployLoop, deployLoopAux_success]
      simp only [Nat.zero_add]
    · rw [deployLoop, deployLoopAux_sum]
      omega
  · decide

theorem find?_by_unique_id (sel : String) :
    ∀ (servers : List DeployServer) (s : DeployServer),
      (servers.map (fun t => t.id)).Nodup → s ∈ servers → s.id = sel →
      servers.find? (fun t => t.id == sel) = some s := by
  intro servers
  induction servers with
  | nil => intro s _ hs _; exact absurd hs (List.not_mem_nil s)
  | cons a rest ih =>
      intro s hnd hs hsid
      rw [List.map_cons, List.nodup_cons] at hnd
      rcases List.mem_cons.mp hs with rfl | hs'
      · rw [List.find?_cons_of_pos]
        simpa using hsid
      · have hne : a.id ≠ sel := by
          intro hcontra
          exact hnd.1 (by
            rw [hcontra, ← hsid]
            exact List.mem_map_of_mem (fun t => t.id) hs')
        rw [List.find?_cons_of_neg _ (by simpa using hne)]
        exact ih s hnd.2 hs' hsid

/-- C6: deploy target resolution — the selection value "all" expands to
exactly the enabled servers (a disabled server is never a target); any other
value resolves to exactly the one server whose id equals it (given the
configured id uniqueness); a value matching no id resolves to the empty
target set, in which case handleManualDeploy dispatches nothing and returns
the component unchanged. -/
theorem C6_target_resolution :
    (∀ (servers : List DeployServer) (s : DeployServer),
        s ∈ resolveTargets "all" servers ↔ s ∈ servers ∧ s.enabled = true) ∧
    (∀ (servers : List DeployServer) (sel : String) (s : DeployServer),
        sel ≠ "all" → (servers.map (fun t => t.id)).Nodup → s ∈ servers → s.id = sel →
        resolveTargets sel servers = [s]) ∧
    (∀ (servers : List DeployServer) (sel : String),
        sel ≠ "all" → (∀ s ∈ servers, s.id ≠ sel) → resolveTargets sel servers = []) ∧
    (∀ (fate : Nat → Bool) (config : AppConfig) (c : DeployComponent),
        resolveTargets c.selectedServerId config.servers = [] →
        handleManualDeploy fate config c = (c, [])) := by
  refine ⟨?_, ?_, ?_, ?_⟩
  · intro servers s
    rw [resolveTargets, if_pos (by rfl)]
    exact List.mem_filter
  · intro servers sel s hsel hnd hs hsid
    rw [resolveTargets, if_neg (by simpa using hsel), find?_by_unique_id sel servers s hnd hs hsid]
  · intro servers sel hsel hnone
    rw [resolveTargets, if_neg (by simpa using hsel)]
    rw [List.find?_eq_none.mpr (fun x hx => by simpa using hnone x hx)]
  · intro fate config c h
    unfold handleManualDeploy
    split
    · rfl
    · rw [h]
      rfl

/-- Witness for C6 at a concrete server list with a matching id, a
non-matching id, and a no-target deploy invocation. -/
theorem C6_target_resolution_witness :
    resolveTargets "s2" [srvA, srvDis, srvB] = [srvB] ∧
    resolveTargets "zzz" [srvA, srvB] = [] ∧
    handleManualDeploy (fun _ => true) cfg1
        { manualLocalPath := "a", manualRemotePath := "b", selectedServerId := "zzz",
          isDeploying := false, deployMsg := "" } =
      ({ manualLocalPath := "a", manualRemotePath := "b", selectedServerId := "zzz",
          isDeploying := false, deployMsg := "" }, []) :=
  ⟨C6_target_resolution.2.1 [srvA, srvDis, srvB] "s2" srvB
      (by decide) (by decide) (by decide) (by decide),
   C6_target_resolution.2.2.1 [srvA, srvB] "zzz" (by decide) (by decide),
   C6_target_resolution.2.2.2 (fun _ => true) cfg1
      { manualLocalPath := "a", manualRemotePath := "b", selectedServerId := "zzz",
        isDeploying := false, deployMsg := "" } (by decide)⟩

/-- Counterexample to C4 as stated: a scheduler-module scan execution
(executeScan) that runs to a successful exit resets the progress snapshot
but leaves the isCancelling and isPaused transient flags set — its finally
block only clears progress; the flags live in the page components and are
not touched. -/
theorem C4_counterexample :
    (step (Op.schedScan "t" (ScanOutcome.success r0)) c4state).1.store.progress = none ∧
    (step (Op.schedScan "t" (ScanOutcome.success r0)) c4state).1.task.isCancelling = true ∧
    (step (Op.schedScan "t" (ScanOutcome.success r0)) c4state).1.task.isPaused = true := by
  refine ⟨rfl, rfl, rfl⟩

/-- C4 (amended): the page-level scan handler (handleScan of
TaskStatusPage/MainConsole) resets the progress snapshot to absent and
clears both the isCancelling and isPaused flags on every exit path (success
and whole-call failure, the two settlements a cancellation also surfaces
as); the scheduler-module executeScan resets only the progress snapshot on
every non-refused exit path and never touches the page-local flags. -/
theorem C4_scan_cleanup (t : String) (oc : ScanOutcome) (store : AppStore) (fl : TaskFlags)
    (sys : SysState) (h : store.isManualDeploying = false) :
    (taskHandleScan t oc store fl).1.progress = none ∧
    (taskHandleScan t oc store fl).2.1 = ⟨false, false⟩ ∧
    (executeScan t oc store).1.progress = none ∧
    (step (Op.schedScan t oc) sys).1.task = sys.task := by
  refine ⟨rfl, rfl, ?_, rfl⟩
  unfold executeScan
  rw [if_neg (by rw [h]; exact Bool.false_ne_true)]

/-- Witness for C4 at a concrete store with live progress. -/
theorem C4_scan_cleanup_witness :
    (executeScan "t" (ScanOutcome.success r0) { initStore with progress := some pX }).1.progress
      = none :=
  (C4_scan_cleanup "t" (ScanOutcome.success r0) { initStore with progress := some pX }
    ⟨true, true⟩ c4state rfl).2.2.1

/-- C5: a progress event at or above 100 percent schedules a deferred clear
exactly graceDelayMs = 2000 ms later, capturing the completing folder name;
when the delay elapses the clear applies only while the current snapshot
still names that folder (clearing snapshot and pause flag), is a no-op when
the snapshot names a different folder, and in particular an event for a
differently-named folder arriving before the deferred clear fires is never
erased by it. -/
theorem C5_deferred_clear_guard :
    (∀ (now : Nat) (p : ProgressPayload) (s : ConsoleTracker), (100 : ℚ) ≤ p.percentage →
        onCopyProgress now p s =
          { s with progress := some (toView p), pending := s.pending ++ [(now + graceDelayMs, p.folder)] }) ∧
    graceDelayMs = 2000 ∧
    (∀ (s : ConsoleTracker) (f : String) (pr : ProgressView),
        s.progress = some pr → pr.folder = f →
        (fireDeferredClear f s).progress = none ∧ (fireDeferredClear f s).isPaused = false) ∧
    (∀ (s : ConsoleTracker) (f : String) (pr : ProgressView),
        s.progress = some pr → pr.folder ≠ f → fireDeferredClear f s = s) ∧
    (∀ (s : ConsoleTracker) (now : Nat) (p : ProgressPayload) (f : String),
        f ≠ p.folder →
        (fireDeferredClear f (onCopyProgress now p s)).progress = some (toView p)) := by
  refine ⟨?_, rfl, ?_, ?_, ?_⟩
  · intro now p s h
    unfold onCopyProgress
    rw [if_pos h]
  · intro s f pr hs hf
    have h1 : fireDeferredClear f s = { s with progress := none, isPaused := false } := by
      unfold fireDeferredClear
      rw [hs]
      dsimp only
      rw [if_pos (by simpa using hf)]
    rw [h1]
    exact ⟨rfl, rfl⟩
  · intro s f pr hs hf
    unfold fireDeferredClear
    rw [hs]
    dsimp only
    rw [if_neg (by simpa using hf)]
  · intro s now p f hf
    have hne : ((toView p).folder == f) ≠ true := by
      simpa [toView] using (Ne.symm hf)
    unfold onCopyProgress fireDeferredClear
    by_cases h100 : (100 : ℚ) ≤ p.percentage
    · rw [if_pos h100]
      dsimp only
      rw [if_neg hne]
    · rw [if_neg h100]
      dsimp only
      rw [if_neg hne]

/-- Witness for C5: the completing event for X schedules the clear at
now + 2000; an event for Y inside the grace window survives the stale
deferred clear for X. -/
theorem C5_deferred_clear_guard_witness :
    onCopyProgress 1000 payX tr0 =
      { tr0 with progress := some (toView payX), pending := tr0.pending ++ [(1000 + graceDelayMs, "X")] } ∧
    (fireDeferredClear "X" (onCopyProgress 1200 payY (onCopyProgress 1000 payX tr0))).progress
      = some (toView payY) ∧
    (fireDeferredClear "X" (onCopyProgress 1000 payX tr0)).progress = none :=
  ⟨C5_deferred_clear_guard.1 1000 payX tr0 (by norm_num [payX]),
   C5_deferred_clear_guard.2.2.2.2 (onCopyProgress 1000 payX tr0) 1200 payY "X" (by decide),
   (C5_deferred_clear_guard.2.2.1 (onCopyProgress 1000 payX tr0) "X" (toView payX)
      (by decide) (by decide)).1⟩

/-- Counterexample to C8 as stated: with a scan/copy in flight (live
progress snapshot), the manual deploy is not refused — handleManualDeploy
checks no scan state, issues the collaborator manualDeploy RPC (plus the
aggregate audit event) and logs no error line (the shared store, its log
buffer included, is untouched). -/
theorem C8_counterexample :
    c8state.store.progress = some pX ∧
    (step (Op.deploy (fun _ => true) cfg1) c8state).2
      = [RpcCall.manualDeploy "s1",
         RpcCall.addSystemEvent "MANUAL_DEPLOY" "Deployed to 1 servers successfully."] ∧
    (step (Op.deploy (fun _ => true) cfg1) c8state).1.store = c8state.store := by
  refine ⟨rfl, ?_, rfl⟩
  decide

/-- C8 (amended): no symmetric guard exists on the deploy side — a manual
deploy invoked in any system state, a scan in flight or not, never touches
the shared store (so no error line is logged) and dispatches the
manualDeploy RPC to every resolved target whenever the form fields are
filled. -/
theorem C8_no_scan_side_guard (sys : SysState) (fate : Nat → Bool) (cfg : AppConfig)
    (h1 : sys.settings.manualLocalPath ≠ "") (h2 : sys.settings.manualRemotePath ≠ "")
    (h3 : sys.settings.selectedServerId ≠ "") :
    (step (Op.deploy fate cfg) sys).1.store = sys.store ∧
    ∀ srv ∈ resolveTargets sys.settings.selectedServerId cfg.servers,
      RpcCall.manualDeploy srv.id ∈ (step (Op.deploy fate cfg) sys).2 := by
  refine ⟨rfl, ?_⟩
  intro srv hsrv
  show RpcCall.manualDeploy srv.id ∈ (handleManualDeploy fate cfg sys.settings).2
  unfold handleManualDeploy
  rw [if_neg (by simp [h1, h2, h3])]
  have hne : resolveTargets sys.settings.selectedServerId cfg.servers ≠ [] :=
    List.ne_nil_of_mem hsrv
  rw [if_neg (by simpa [List.length_eq_zero] using hne)]
  have hmem : RpcCall.manualDeploy srv.id
      ∈ (deployLoop fate (resolveTargets sys.settings.selectedServerId cfg.servers)).2.2 := by
    rw [deployLoop, deployLoopAux_calls]
    exact List.mem_map_of_mem _ hsrv
  dsimp only
  split
  · exact List.mem_append_left _ hmem
  · exact hmem

/-- Witness for C8 at the concrete scan-in-flight state. -/
theorem C8_no_scan_side_guard_witness :
    (step (Op.deploy (fun _ => true) cfg1) c8state).1.store = c8state.store ∧
    ∀ srv ∈ resolveTargets c8state.settings.selectedServerId cfg1.servers,
      RpcCall.manualDeploy srv.id ∈ (step (Op.deploy (fun _ => true) cfg1) c8state).2 :=
  C8_no_scan_side_guard c8state (fun _ => true) cfg1 (by decide) (by decide) (by decide)
